import Mathlib

/-!
Verification development for the flexprice/bento-collector repository: a
batching, retrying output connector that accepts a stream of usage events
and delivers them to a remote ingestion HTTP API.

The repository ships only the entry point (main.go), the deployment script
(scripts/build_and_push_ecr.sh) and documentation; the core output plugin
(output/flexprice.go: batcher, delivery client, retry controller,
concurrency limiter, dead-letter router) is referenced by main.go and the
README but its source is not in the tree.  Those components are therefore
modelled from the specification, as marked on each definition.  main.go and
the shell script are embedded from their sources directly.
-/

namespace BentoCollector

/-- Modelled from the spec: an Event record (spec section 3).  Required
fields event_name and external_customer_id; optional properties (string
keys to string values), timestamp, source and event_id. -/
structure Event where
  event_name : String
  external_customer_id : String
  properties : List (String × String)
  timestamp : Option String
  source : Option String
  event_id : Option String
deriving DecidableEq, Repr

/-- A Batch is an ordered sequence of Events (spec section 3). -/
def Batch := List Event

/-- Modelled from the spec: the Record Batcher configuration — a count
threshold and a period threshold (spec section 4.1). -/
structure BatchConfig where
  count : Nat
  period : Nat
deriving Repr

/-- Modelled from the spec: the Record Batcher state — one open Batch and
the time the first Event of the open Batch was added (meaningful only when
the open Batch is nonempty; reset to 0 after a seal). -/
structure BatcherState where
  openEvents : List Event
  firstAt : Nat
deriving Repr

/-- An external stimulus to the Batcher: an Add call carrying one Event at
a given time, or a firing of the periodic timer at a given time. -/
inductive BStep where
  | add (e : Event) (t : Nat)
  | tick (t : Nat)

/-- Modelled from the spec (section 4.1, the missing output/flexprice.go
batching logic): Add appends the Event to the open Batch and seals when
the Event count reaches the configured count threshold; the periodic timer
seals a nonempty open Batch once the time since the first Event was added
reaches the configured period threshold.  After a seal a fresh empty Batch
begins. -/
def stepBatcher (cfg : BatchConfig) (st : BatcherState) : BStep → BatcherState × Option Batch
  | BStep.add e t =>
      let f := if st.openEvents.isEmpty then t else st.firstAt
      let evs := st.openEvents ++ [e]
      if cfg.count ≤ evs.length then
        (⟨[], 0⟩, some evs)
      else
        (⟨evs, f⟩, none)
  | BStep.tick t =>
      if st.openEvents.isEmpty then
        (st, none)
      else if st.firstAt + cfg.period ≤ t then
        (⟨[], 0⟩, some st.openEvents)
      else
        (st, none)

/-- Run the Batcher over a sequence of stimuli, collecting the sealed
Batches in order of emission. -/
def runBatcher (cfg : BatchConfig) (st : BatcherState) : List BStep → BatcherState × List Batch
  | [] => (st, [])
  | s :: rest =>
      let p := stepBatcher cfg st s
      let r := runBatcher cfg p.1 rest
      (r.1, p.2.toList ++ r.2)

/-- The Events carried by the Add stimuli of a trace, in order. -/
def addedEvents : List BStep → List Event
  | [] => []
  | BStep.add e _ :: rest => e :: addedEvents rest
  | BStep.tick _ :: rest => addedEvents rest

/-- One Batcher step conserves Events: the Events emitted by the step plus
the Events left open equal the Events that were open before plus the Event
added (if the step was an Add). -/
lemma stepBatcher_conserve (cfg : BatchConfig) (st : BatcherState) (s : BStep) :
    ((stepBatcher cfg st s).2.toList.flatten) ++ (stepBatcher cfg st s).1.openEvents
      = st.openEvents ++ addedEvents [s] := by
  cases s with
  | add e t =>
      simp only [stepBatcher, addedEvents]
      split
      · simp [List.flatten]
      · simp
  | tick t =>
      simp only [stepBatcher, addedEvents]
      split
      · simp
      · split
        · simp [List.flatten]
        · simp

/-- Running the Batcher conserves Events: the concatenation of all emitted
Batches followed by the final open Batch equals the initial open Batch
followed by all added Events.  In particular no Event is duplicated across
two Batches and no Event is dropped. -/
lemma runBatcher_conserve (cfg : BatchConfig) (steps : List BStep) :
    ∀ st : BatcherState,
      ((runBatcher cfg st steps).2.flatten) ++ (runBatcher cfg st steps).1.openEvents
        = st.openEvents ++ addedEvents steps := by
  induction steps with
  | nil => intro st; simp [runBatcher, addedEvents]
  | cons s rest ih =>
      intro st
      have hstep := stepBatcher_conserve cfg st s
      have hrest := ih (stepBatcher cfg st s).1
      show ((stepBatcher cfg st s).2.toList
              ++ (runBatcher cfg (stepBatcher cfg st s).1 rest).2).flatten
            ++ (runBatcher cfg (stepBatcher cfg st s).1 rest).1.openEvents
          = st.openEvents ++ addedEvents (s :: rest)
      rw [List.flatten_append, List.append_assoc, hrest, ← List.append_assoc, hstep,
        List.append_assoc]
      cases s <;> simp [addedEvents]

/-- C1: the open Batch is sealed exactly when the Event count reaches the
configured count threshold (on Add) or the time since the first Event was
added reaches the configured period threshold (on the timer); immediately
after any seal a fresh empty Batch begins; and across any trace of Adds and
timer firings the emitted Batches partition the added Events, so no Event
appears in two Batches. -/
theorem batcher_seals_at_count_or_period (cfg : BatchConfig) (st : BatcherState)
    (e : Event) (t : Nat) :
    (((stepBatcher cfg st (BStep.add e t)).2).isSome ↔ cfg.count ≤ st.openEvents.length + 1)
    ∧ (((stepBatcher cfg st (BStep.tick t)).2).isSome
        ↔ st.openEvents ≠ [] ∧ st.firstAt + cfg.period ≤ t)
    ∧ (∀ s : BStep, ((stepBatcher cfg st s).2).isSome →
        (stepBatcher cfg st s).1.openEvents = [])
    ∧ (∀ steps : List BStep,
        ((runBatcher cfg ⟨[], 0⟩ steps).2.flatten) ++ (runBatcher cfg ⟨[], 0⟩ steps).1.openEvents
          = addedEvents steps) := by
  refine ⟨?_, ?_, ?_, ?_⟩
  · simp only [stepBatcher]
    split
    · next h => simpa using h
    · next h => simpa using h
  · simp only [stepBatcher]
    split
    · next h =>
        simp only [List.isEmpty_iff] at h
        simp [h]
    · next h =>
        simp only [List.isEmpty_iff] at h
        split
        · next h2 => simp [h, h2]
        · next h2 => simp [h, h2]
  · intro s
    cases s with
    | add e' t' =>
        simp only [stepBatcher]
        split
        · intro _; rfl
        · intro hc; simp at hc
    | tick t' =>
        simp only [stepBatcher]
        split
        · intro hc; simp at hc
        · split
          · intro _; rfl
          · intro hc; simp at hc
  · intro steps
    have := runBatcher_conserve cfg steps ⟨[], 0⟩
    simpa using this

/-- The result of one HTTP delivery attempt as seen on the wire: a status
code, or a transport-level failure (spec section 4.2). -/
inductive HttpResult where
  | status (code : Nat)
  | connFailure
  | timeoutFailure
  | dnsFailure
deriving DecidableEq, Repr

/-- Modelled from the spec: the four delivery outcome classes of the HTTP
Delivery Client (spec section 4.2). -/
inductive DeliveryOutcome where
  | success
  | clientError
  | serverError
  | transportError
deriving DecidableEq, Repr

/-- Modelled from the spec (section 4.2, the missing output/flexprice.go
delivery client): classify the wire result of one attempt — 2xx is
Success, 4xx is ClientError, 5xx is ServerError, and connection failure,
timeout or DNS failure is TransportError.  Other status classes (1xx, 3xx)
are not produced by the ingestion API; they fall into the server-error
branch so the function is total. -/
def classify : HttpResult → DeliveryOutcome
  | HttpResult.status c =>
      if 200 ≤ c ∧ c < 300 then DeliveryOutcome.success
      else if 400 ≤ c ∧ c < 500 then DeliveryOutcome.clientError
      else DeliveryOutcome.serverError
  | HttpResult.connFailure => DeliveryOutcome.transportError
  | HttpResult.timeoutFailure => DeliveryOutcome.transportError
  | HttpResult.dnsFailure => DeliveryOutcome.transportError

/-- Modelled from the spec: Send(batch) issues a single HTTP POST and
classifies its result; it performs no retry itself.  The model records the
number of POSTs issued by one Send call alongside the classified
outcome. -/
def Send (result : HttpResult) : DeliveryOutcome × Nat :=
  (classify result, 1)

/-- Modelled from the spec: the Retry/Backoff Controller configuration —
maximum attempt count, base backoff delay and maximum (cap) delay (spec
sections 4.3 and 6). -/
structure RetryConfig where
  maxAttempts : Nat
  baseDelay : Nat
  capDelay : Nat
deriving Repr

/-- The decision of the Retry/Backoff Controller for one failed (or
succeeded) attempt (spec section 4.3). -/
inductive RetryDecision where
  | done
  | retryAfter (d : Nat)
  | giveUp
deriving DecidableEq, Repr

/-- Modelled from the spec: the exponential backoff delay before attempt
number attempt plus one — the base delay doubled per completed attempt,
capped at the configured maximum delay. -/
def backoffDelay (cfg : RetryConfig) (attempt : Nat) : Nat :=
  min (cfg.baseDelay * 2 ^ (attempt - 1)) cfg.capDelay

/-- Modelled from the spec (section 4.3, the missing output/flexprice.go
retry logic): Success is terminal; ClientError is never retried; a
ServerError or TransportError is retried with exponential backoff while
the attempt count is below the configured maximum, and GiveUp after
exhaustion. -/
def decideRetry (cfg : RetryConfig) (outcome : DeliveryOutcome) (attempt : Nat) : RetryDecision :=
  match outcome with
  | DeliveryOutcome.success => RetryDecision.done
  | DeliveryOutcome.clientError => RetryDecision.giveUp
  | DeliveryOutcome.serverError =>
      if attempt < cfg.maxAttempts then RetryDecision.retryAfter (backoffDelay cfg attempt)
      else RetryDecision.giveUp
  | DeliveryOutcome.transportError =>
      if attempt < cfg.maxAttempts then RetryDecision.retryAfter (backoffDelay cfg attempt)
      else RetryDecision.giveUp

/-- The terminal state of a Batch: delivered to the ingestion API, or
dead-lettered (spec sections 4.3 and 8). -/
inductive Terminal where
  | delivered
  | deadLettered
deriving DecidableEq, Repr

/-- Modelled from the spec: the delivery loop for one Batch, parameterised
by the outcome of each attempt (attempt numbers are 1-based).  Returns the
number of attempts made and the terminal state.  The fuel argument bounds
the recursion; it is spent only on Retry decisions, which the controller
caps at the configured maximum attempt count. -/
def deliveryGo (cfg : RetryConfig) (outcomes : Nat → DeliveryOutcome) :
    Nat → Nat → Nat × Terminal
  | attempt, fuel =>
      match decideRetry cfg (outcomes attempt) attempt with
      | RetryDecision.done => (attempt, Terminal.delivered)
      | RetryDecision.giveUp => (attempt, Terminal.deadLettered)
      | RetryDecision.retryAfter _ =>
          match fuel with
          | 0 => (attempt, Terminal.deadLettered)
          | fuel' + 1 => deliveryGo cfg outcomes (attempt + 1) fuel'

/-- Modelled from the spec: deliver one Batch, starting at attempt 1, with
enough fuel for the configured maximum attempt count. -/
def runDelivery (cfg : RetryConfig) (outcomes : Nat → DeliveryOutcome) : Nat × Terminal :=
  deliveryGo cfg outcomes 1 cfg.maxAttempts

/-- C8: the Delivery Client maps every HTTP/transport result to exactly one
DeliveryOutcome — Success for every 2xx status, ClientError for every 4xx,
ServerError for every 5xx, TransportError for connection failure, timeout
and DNS failure — and a single Send call issues exactly one HTTP POST,
performing no retry itself. -/
theorem send_classifies_and_posts_once (c : Nat) (r : HttpResult) :
    (200 ≤ c → c < 300 → (Send (HttpResult.status c)).1 = DeliveryOutcome.success)
    ∧ (400 ≤ c → c < 500 → (Send (HttpResult.status c)).1 = DeliveryOutcome.clientError)
    ∧ (500 ≤ c → c < 600 → (Send (HttpResult.status c)).1 = DeliveryOutcome.serverError)
    ∧ (Send HttpResult.connFailure).1 = DeliveryOutcome.transportError
    ∧ (Send HttpResult.timeoutFailure).1 = DeliveryOutcome.transportError
    ∧ (Send HttpResult.dnsFailure).1 = DeliveryOutcome.transportError
    ∧ (Send r).2 = 1 := by
  refine ⟨?_, ?_, ?_, rfl, rfl, rfl, rfl⟩
  · intro h1 h2
    simp [Send, classify, h1, h2]
  · intro h1 h2
    have hn : ¬ (200 ≤ c ∧ c < 300) := by omega
    simp [Send, classify, hn, h1, h2]
  · intro h1 h2
    have hn : ¬ (200 ≤ c ∧ c < 300) := by omega
    have hn' : ¬ (400 ≤ c ∧ c < 500) := by omega
    simp [Send, classify, hn, hn']

/-- C8 witness at a concrete status code. -/
theorem send_classifies_and_posts_once_witness :
    (Send (HttpResult.status 204)).1 = DeliveryOutcome.success
    ∧ (Send HttpResult.connFailure).2 = 1 :=
  ⟨(send_classifies_and_posts_once 204 HttpResult.connFailure).1 (by decide) (by decide),
   (send_classifies_and_posts_once 204 HttpResult.connFailure).2.2.2.2.2.2⟩

/-- C2: a ClientError outcome (any 4xx response) is never retried: the
controller decides GiveUp at every attempt number, and the delivery loop
makes exactly one attempt before handing the Batch to dead-lettering. -/
theorem clientError_never_retried (cfg : RetryConfig) (attempt c : Nat)
    (outcomes : Nat → DeliveryOutcome) :
    decideRetry cfg DeliveryOutcome.clientError attempt = RetryDecision.giveUp
    ∧ (400 ≤ c → c < 500 →
        decideRetry cfg (classify (HttpResult.status c)) attempt = RetryDecision.giveUp)
    ∧ (outcomes 1 = DeliveryOutcome.clientError →
        runDelivery cfg outcomes = (1, Terminal.deadLettered)) := by
  refine ⟨rfl, ?_, ?_⟩
  · intro h1 h2
    have hn : ¬ (200 ≤ c ∧ c < 300) := by omega
    simp [classify, hn, h1, h2, decideRetry]
  · intro h
    cases hf : cfg.maxAttempts with
    | zero => simp [runDelivery, deliveryGo, h, decideRetry, hf]
    | succ n => simp [runDelivery, deliveryGo, h, decideRetry, hf]

/-- C2 witness: a first-attempt ClientError is dead-lettered after exactly
one attempt. -/
theorem clientError_never_retried_witness :
    runDelivery ⟨3, 1, 30⟩ (fun _ => DeliveryOutcome.clientError) = (1, Terminal.deadLettered) :=
  (clientError_never_retried ⟨3, 1, 30⟩ 1 400 (fun _ => DeliveryOutcome.clientError)).2.2 rfl

/-- C3: ServerError and TransportError outcomes are retried with
exponential backoff — the delay before the next attempt is the base delay
times two to the number of completed attempts less one, capped at the
configured maximum delay, so the uncapped delay doubles per attempt —
until the configured maximum attempt count is reached, after which the
controller gives up; with maximum attempts 3 and every attempt failing
retryably, exactly 3 attempts occur before dead-lettering. -/
theorem serverError_retried_with_backoff (cfg : RetryConfig) (outcome : DeliveryOutcome)
    (attempt base cap : Nat) (outcomes : Nat → DeliveryOutcome) :
    (outcome = DeliveryOutcome.serverError ∨ outcome = DeliveryOutcome.transportError →
      decideRetry cfg outcome attempt =
        if attempt < cfg.maxAttempts
        then RetryDecision.retryAfter (min (cfg.baseDelay * 2 ^ (attempt - 1)) cfg.capDelay)
        else RetryDecision.giveUp)
    ∧ (1 ≤ attempt →
        backoffDelay cfg (attempt + 1) = min (2 * (cfg.baseDelay * 2 ^ (attempt - 1))) cfg.capDelay)
    ∧ ((∀ n, outcomes n = DeliveryOutcome.serverError
          ∨ outcomes n = DeliveryOutcome.transportError) →
        runDelivery ⟨3, base, cap⟩ outcomes = (3, Terminal.deadLettered)) := by
  refine ⟨?_, ?_, ?_⟩
  · rintro (rfl | rfl) <;> rfl
  · intro h1
    obtain ⟨m, rfl⟩ : ∃ m, attempt = m + 1 := ⟨attempt - 1, by omega⟩
    have hp : cfg.baseDelay * 2 ^ (m + 1) = 2 * (cfg.baseDelay * 2 ^ (m + 1 - 1)) := by
      simp only [Nat.add_sub_cancel, pow_succ]
      ring
    simp only [backoffDelay, Nat.add_sub_cancel]
    rw [hp]
    simp
  · intro hall
    rcases hall 1 with h1 | h1 <;> rcases hall 2 with h2 | h2 <;> rcases hall 3 with h3 | h3 <;>
      simp [runDelivery, deliveryGo, decideRetry, h1, h2, h3]

/-- C3 witness at a concrete configuration and failure pattern. -/
theorem serverError_retried_with_backoff_witness :
    decideRetry ⟨3, 2, 100⟩ DeliveryOutcome.serverError 1 = RetryDecision.retryAfter 2
    ∧ backoffDelay ⟨3, 2, 100⟩ 2 = 4
    ∧ runDelivery ⟨3, 2, 100⟩ (fun _ => DeliveryOutcome.transportError)
        = (3, Terminal.deadLettered) := by
  have h := serverError_retried_with_backoff ⟨3, 2, 100⟩ DeliveryOutcome.serverError 1 2 100
    (fun _ => DeliveryOutcome.transportError)
  refine ⟨?_, ?_, h.2.2 (fun _ => Or.inr rfl)⟩
  · have := h.1 (Or.inl rfl)
    simpa using this
  · have := h.2.1 (by decide)
    simpa using this

/-- C5: across any trace, the sealed Batches together with the still-open
Batch partition the added Events (each Event is consumed into exactly one
Batch and none is lost), and the delivery of any Batch resolves to exactly
one of the two terminal states, delivered or dead-lettered. -/
theorem events_consumed_once_and_batches_resolve (cfg : BatchConfig) (rcfg : RetryConfig)
    (steps : List BStep) (outcomes : Nat → DeliveryOutcome) :
    ((runBatcher cfg ⟨[], 0⟩ steps).2.flatten ++ (runBatcher cfg ⟨[], 0⟩ steps).1.openEvents
        = addedEvents steps)
    ∧ ((runDelivery rcfg outcomes).2 = Terminal.delivered
        ∨ (runDelivery rcfg outcomes).2 = Terminal.deadLettered)
    ∧ ¬ ((runDelivery rcfg outcomes).2 = Terminal.delivered
        ∧ (runDelivery rcfg outcomes).2 = Terminal.deadLettered) := by
  refine ⟨?_, ?_, ?_⟩
  · simpa using runBatcher_conserve cfg steps ⟨[], 0⟩
  · cases h : (runDelivery rcfg outcomes).2
    · exact Or.inl rfl
    · exact Or.inr rfl
  · rintro ⟨h1, h2⟩
    rw [h1] at h2
    exact Terminal.noConfusion h2

/-- The result of a Route call on the Dead-Letter Router: acknowledgment,
or failure to reach the dead-letter sink (spec section 4.5). -/
inductive RouteResult where
  | ack
  | sinkFailure
deriving DecidableEq, Repr

/-- Modelled from the spec (section 4.5, the missing output/flexprice.go
dead-letter routing): Route forwards the failed Batch to the configured
secondary sink; when the sink is reachable it acknowledges, otherwise it
reports failure. -/
def route (sinkAvailable : Bool) : RouteResult :=
  if sinkAvailable then RouteResult.ack else RouteResult.sinkFailure

/-- What the upstream pipeline sees for one Batch: an acknowledgment
(delivered or durably dead-lettered), or a fatal unrecoverable error. -/
inductive UpstreamResult where
  | acked
  | fatal
deriving DecidableEq, Repr

/-- Modelled from the spec (sections 2 and 7): the end-to-end handling of
one sealed Batch — deliver with retries; on success acknowledge upstream;
on give-up route to the dead-letter sink, acknowledging upstream when the
sink accepts and surfacing a fatal error when the sink is unreachable. -/
def handleBatch (cfg : RetryConfig) (outcomes : Nat → DeliveryOutcome)
    (sinkAvailable : Bool) : UpstreamResult :=
  match (runDelivery cfg outcomes).2 with
  | Terminal.delivered => UpstreamResult.acked
  | Terminal.deadLettered =>
      match route sinkAvailable with
      | RouteResult.ack => UpstreamResult.acked
      | RouteResult.sinkFailure => UpstreamResult.fatal

/-- Modelled from the spec: the error taxonomy of section 7. -/
inductive ErrClass where
  | validationError
  | clientRejection
  | transientNetworkError
  | serverUnavailable
  | retryExhausted
  | deadLetterSinkUnavailable
deriving DecidableEq, Repr

/-- How an error class is handled (spec section 7): retried locally with
backoff, absorbed into dead-lettering and acknowledged upstream, or
propagated to the caller as fatal. -/
inductive ErrDisposition where
  | retryWithBackoff
  | deadLetter
  | fatalToCaller
deriving DecidableEq, Repr

/-- Modelled from the spec (section 7 taxonomy): transient network errors
and server unavailability are retryable; dead-letter-sink unavailability is
the one fatal condition; every other class is absorbed into
dead-lettering. -/
def disposeErr : ErrClass → ErrDisposition
  | ErrClass.transientNetworkError => ErrDisposition.retryWithBackoff
  | ErrClass.serverUnavailable => ErrDisposition.retryWithBackoff
  | ErrClass.deadLetterSinkUnavailable => ErrDisposition.fatalToCaller
  | ErrClass.validationError => ErrDisposition.deadLetter
  | ErrClass.clientRejection => ErrDisposition.deadLetter
  | ErrClass.retryExhausted => ErrDisposition.deadLetter

/-- C6: dead-letter-sink unavailability is the only condition surfaced
upstream as a fatal error — batch handling is fatal exactly when delivery
gave up and the sink is unreachable; with the sink reachable every Batch is
acknowledged; in the error taxonomy only DeadLetterSinkUnavailable is
propagated to the caller; and every handling run ends in an acknowledgment
or a fatal error, so no outcome is silently dropped. -/
theorem sink_failure_only_fatal (cfg : RetryConfig) (outcomes : Nat → DeliveryOutcome)
    (sinkAvailable : Bool) (c : ErrClass) :
    (handleBatch cfg outcomes sinkAvailable = UpstreamResult.fatal
      ↔ (runDelivery cfg outcomes).2 = Terminal.deadLettered ∧ sinkAvailable = false)
    ∧ (sinkAvailable = true → handleBatch cfg outcomes sinkAvailable = UpstreamResult.acked)
    ∧ (disposeErr c = ErrDisposition.fatalToCaller ↔ c = ErrClass.deadLetterSinkUnavailable)
    ∧ (handleBatch cfg outcomes sinkAvailable = UpstreamResult.acked
        ∨ handleBatch cfg outcomes sinkAvailable = UpstreamResult.fatal) := by
  refine ⟨?_, ?_, ?_, ?_⟩
  · cases h : (runDelivery cfg outcomes).2 <;> cases sinkAvailable <;>
      simp [handleBatch, route, h]
  · intro hs
    cases h : (runDelivery cfg outcomes).2 <;> simp [handleBatch, route, h, hs]
  · cases c <;> simp [disposeErr]
  · cases h : (runDelivery cfg outcomes).2 <;> cases sinkAvailable <;>
      simp [handleBatch, route, h]

/-- C6 witness: with an unreachable sink and a permanently failing API the
Batch is surfaced as fatal; with a reachable sink it is acknowledged. -/
theorem sink_failure_only_fatal_witness :
    handleBatch ⟨3, 1, 30⟩ (fun _ => DeliveryOutcome.clientError) true = UpstreamResult.acked :=
  (sink_failure_only_fatal ⟨3, 1, 30⟩ (fun _ => DeliveryOutcome.clientError) true
    ErrClass.validationError).2.1 rfl

/-- Modelled from the spec (section 3 invariant): an Event is valid when
its event_name and external_customer_id are both non-empty. -/
def validEvent (e : Event) : Bool :=
  e.event_name != "" && e.external_customer_id != ""

/-- The result of validating one Event before delivery. -/
inductive EventCheck where
  | accepted
  | validationFailed
deriving DecidableEq, Repr

/-- Modelled from the spec: validation of one Event — absence or emptiness
of a required field is a terminal validation error. -/
def checkEvent (e : Event) : EventCheck :=
  if validEvent e then EventCheck.accepted else EventCheck.validationFailed

/-- C7: an Event with an absent or empty event_name or
external_customer_id fails validation, validation failure is classed as a
ValidationError whose disposition is dead-letter (never retry), and every
Event accepted for delivery has both required fields non-empty. -/
theorem missing_fields_terminal_validation_error (e : Event) :
    (checkEvent e = EventCheck.validationFailed
      ↔ e.event_name = "" ∨ e.external_customer_id = "")
    ∧ (checkEvent e = EventCheck.accepted
      ↔ e.event_name ≠ "" ∧ e.external_customer_id ≠ "")
    ∧ disposeErr ErrClass.validationError = ErrDisposition.deadLetter
    ∧ disposeErr ErrClass.validationError ≠ ErrDisposition.retryWithBackoff := by
  refine ⟨?_, ?_, rfl, by simp [disposeErr]⟩
  · by_cases h1 : e.event_name = "" <;> by_cases h2 : e.external_customer_id = "" <;>
      simp [checkEvent, validEvent, h1, h2]
  · by_cases h1 : e.event_name = "" <;> by_cases h2 : e.external_customer_id = "" <;>
      simp [checkEvent, validEvent, h1, h2]

/-- Modelled from the spec: the lifecycle phase of one sealed Batch with
respect to the In-Flight Concurrency Limiter (spec sections 4.3 and 4.4) —
sealed and waiting for a slot, in flight (slot held), or terminal
(succeeded or dead-lettered, slot released). -/
inductive BatchPhase where
  | sealed
  | inFlight
  | succeeded
  | deadLettered
deriving DecidableEq, Repr

/-- A phase is terminal when the Batch has succeeded or been
dead-lettered. -/
def isTerminalPhase : BatchPhase → Bool
  | BatchPhase.succeeded => true
  | BatchPhase.deadLettered => true
  | BatchPhase.sealed => false
  | BatchPhase.inFlight => false

/-- The number of Batches currently holding a limiter slot, i.e. between
sealing and a terminal state. -/
def inFlightCount : List BatchPhase → Nat
  | [] => 0
  | p :: rest => (if p = BatchPhase.inFlight then 1 else 0) + inFlightCount rest

/-- Modelled from the spec (section 4.4, the missing output/flexprice.go
concurrency limiting): the nondeterministic transition relation over the
phases of a fixed population of Batches.  Any interleaving of concurrent
deliveries and any injected delay or failure pattern is a sequence of
these steps: a sealed Batch acquires a slot only while the in-flight
number is below the limit, and an in-flight Batch may terminate at any
time as succeeded or dead-lettered, releasing its slot. -/
inductive SysStep (limit : Nat) : List BatchPhase → List BatchPhase → Prop
  | acquire (st : List BatchPhase) (i : Nat) (h : i < st.length) :
      st[i] = BatchPhase.sealed →
      inFlightCount st < limit →
      SysStep limit st (st.set i BatchPhase.inFlight)
  | succeed (st : List BatchPhase) (i : Nat) (h : i < st.length) :
      st[i] = BatchPhase.inFlight →
      SysStep limit st (st.set i BatchPhase.succeeded)
  | deadLetter (st : List BatchPhase) (i : Nat) (h : i < st.length) :
      st[i] = BatchPhase.inFlight →
      SysStep limit st (st.set i BatchPhase.deadLettered)

/-- The states reachable from an initial phase assignment under the
limiter transition relation. -/
inductive Reachable (limit : Nat) (init : List BatchPhase) : List BatchPhase → Prop
  | refl : Reachable limit init init
  | tail {st st' : List BatchPhase} :
      Reachable limit init st → SysStep limit st st' → Reachable limit init st'

/-- Updating one phase changes the in-flight count by the difference of
the old and new contributions. -/
lemma inFlightCount_set (l : List BatchPhase) (i : Nat) (p : BatchPhase) (h : i < l.length) :
    inFlightCount (l.set i p) + (if l[i] = BatchPhase.inFlight then 1 else 0)
      = inFlightCount l + (if p = BatchPhase.inFlight then 1 else 0) := by
  induction l generalizing i with
  | nil => simp at h
  | cons a tl ih =>
      cases i with
      | zero =>
          simp only [List.set, inFlightCount, List.getElem_cons_zero]
          omega
      | succ n =>
          simp only [List.set, inFlightCount, List.getElem_cons_succ]
          have := ih n (by simpa using h)
          omega

/-- One limiter step keeps the in-flight count within the limit. -/
lemma sysStep_count_le (limit : Nat) {st st' : List BatchPhase} (hs : SysStep limit st st')
    (hle : inFlightCount st ≤ limit) : inFlightCount st' ≤ limit := by
  cases hs with
  | acquire i h hph hcnt =>
      have hc := inFlightCount_set st i BatchPhase.inFlight h
      rw [hph] at hc
      simp at hc
      omega
  | succeed i h hph =>
      have hc := inFlightCount_set st i BatchPhase.succeeded h
      rw [hph] at hc
      simp at hc
      omega
  | deadLetter i h hph =>
      have hc := inFlightCount_set st i BatchPhase.deadLettered h
      rw [hph] at hc
      simp at hc
      omega

/-- The in-flight bound is inductive along reachability. -/
lemma reachable_count_le (limit : Nat) {init st : List BatchPhase}
    (hr : Reachable limit init st) (hinit : inFlightCount init ≤ limit) :
    inFlightCount st ≤ limit := by
  induction hr with
  | refl => exact hinit
  | tail _ hs ih => exact sysStep_count_le limit hs ih

/-- An all-sealed population holds no slots. -/
lemma inFlightCount_replicate_sealed (n : Nat) :
    inFlightCount (List.replicate n BatchPhase.sealed) = 0 := by
  induction n with
  | zero => rfl
  | succ n ih => simp [List.replicate_succ, inFlightCount, ih]

/-- C4: under every interleaving (every step sequence of the limiter
transition relation) the number of Batches holding a slot never exceeds
the configured limit; a Batch in a terminal state is never touched again,
so its slot cannot be released twice; and a step that moves a Batch from
in-flight to a terminal state releases exactly one slot. -/
theorem inflight_bounded_and_slot_released_once (limit n : Nat) (st : List BatchPhase) :
    (Reachable limit (List.replicate n BatchPhase.sealed) st → inFlightCount st ≤ limit)
    ∧ (∀ st1 st2 : List BatchPhase, SysStep limit st1 st2 →
        ∀ i : Nat, ∀ h1 : i < st1.length, ∀ h2 : i < st2.length,
          isTerminalPhase st1[i] = true → st2[i] = st1[i])
    ∧ (∀ st1 st2 : List BatchPhase, SysStep limit st1 st2 →
        ∀ i : Nat, ∀ h1 : i < st1.length, ∀ h2 : i < st2.length,
          st1[i] = BatchPhase.inFlight → isTerminalPhase st2[i] = true →
          inFlightCount st2 + 1 = inFlightCount st1) := by
  refine ⟨?_, ?_, ?_⟩
  · intro hr
    exact reachable_count_le limit hr (by simp [inFlightCount_replicate_sealed])
  · intro st1 st2 hs i h1 h2 hterm
    cases hs with
    | acquire j hj hph hcnt =>
        by_cases hij : j = i
        · subst hij
          rw [hph] at hterm
          simp [isTerminalPhase] at hterm
        · exact List.getElem_set_ne hij _
    | succeed j hj hph =>
        by_cases hij : j = i
        · subst hij
          rw [hph] at hterm
          simp [isTerminalPhase] at hterm
        · exact List.getElem_set_ne hij _
    | deadLetter j hj hph =>
        by_cases hij : j = i
        · subst hij
          rw [hph] at hterm
          simp [isTerminalPhase] at hterm
        · exact List.getElem_set_ne hij _
  · intro st1 st2 hs i h1 h2 hin hterm
    cases hs with
    | acquire j hj hph hcnt =>
        by_cases hij : j = i
        · subst hij
          rw [List.getElem_set_self (by simpa using h2)] at hterm
          simp [isTerminalPhase] at hterm
        · rw [List.getElem_set_ne hij _, hin] at hterm
          simp [isTerminalPhase] at hterm
    | succeed j hj hph =>
        have hc := inFlightCount_set st1 j BatchPhase.succeeded hj
        rw [hph] at hc
        simp at hc
        omega
    | deadLetter j hj hph =>
        have hc := inFlightCount_set st1 j BatchPhase.deadLettered hj
        rw [hph] at hc
        simp at hc
        omega

/-- C4 witness: a concrete two-step run (acquire, then succeed) under
limit 1, and a concrete terminating step among two Batches. -/
theorem inflight_bounded_and_slot_released_once_witness :
    inFlightCount [BatchPhase.succeeded] ≤ 1
    ∧ ([BatchPhase.succeeded, BatchPhase.succeeded] : List BatchPhase)[1]
        = ([BatchPhase.inFlight, BatchPhase.succeeded] : List BatchPhase)[1]
    ∧ inFlightCount [BatchPhase.succeeded, BatchPhase.succeeded] + 1
        = inFlightCount [BatchPhase.inFlight, BatchPhase.succeeded] := by
  have hstep1 : SysStep 1 [BatchPhase.sealed] [BatchPhase.inFlight] :=
    SysStep.acquire [BatchPhase.sealed] 0 (by decide) rfl (by decide)
  have hstep2 : SysStep 1 [BatchPhase.inFlight] [BatchPhase.succeeded] :=
    SysStep.succeed [BatchPhase.inFlight] 0 (by decide) rfl
  have hreach : Reachable 1 [BatchPhase.sealed] [BatchPhase.succeeded] :=
    Reachable.tail (Reachable.tail Reachable.refl hstep1) hstep2
  have hstep3 : SysStep 1 [BatchPhase.inFlight, BatchPhase.succeeded]
      [BatchPhase.succeeded, BatchPhase.succeeded] :=
    SysStep.succeed [BatchPhase.inFlight, BatchPhase.succeeded] 0 (by decide) rfl
  have hmain := inflight_bounded_and_slot_released_once 1 1 [BatchPhase.succeeded]
  refine ⟨hmain.1 hreach, ?_, ?_⟩
  · exact hmain.2.1 _ _ hstep3 1 (by decide) (by decide) (by decide)
  · exact hmain.2.2 _ _ hstep3 0 (by decide) (by decide) rfl (by decide)

/-- The result of the godotenv.Load call in src/main.go: loaded, or an
error because the .env file is missing or unreadable.  main.go assigns
this result to the blank identifier. -/
inductive EnvLoadResult where
  | loaded
  | fileMissing
  | unreadable
deriving DecidableEq, Repr

/-- The service entry point main hands control to. -/
inductive MainAction where
  | runServiceCLI
deriving DecidableEq, Repr

/-- Embedded from src/main.go lines 16-29: main discards the result of
godotenv.Load with a blank assignment and unconditionally calls
service.RunCLI with a background context; no filesystem state produces an
error path. -/
def mainEntry (envLoad : EnvLoadResult) : Except String MainAction :=
  let _ := envLoad
  Except.ok MainAction.runServiceCLI

/-- C9: process startup never fails because of a missing or unreadable
.env file — for every filesystem state the error from godotenv.Load is
discarded and the same service entry point, service.RunCLI, is reached. -/
theorem main_ignores_env_load_result (r r' : EnvLoadResult) :
    mainEntry r = Except.ok MainAction.runServiceCLI ∧ mainEntry r = mainEntry r' :=
  ⟨rfl, rfl⟩

/-- The git state seen by scripts/build_and_push_ecr.sh: whether the
working directory is a git repository, and the short commit hash when it
is. -/
structure GitState where
  inRepo : Bool
  shortHash : String
deriving DecidableEq, Repr

/-- Embedded from src/scripts/build_and_push_ecr.sh line 89: COMMIT_HASH
is the short git commit hash, or the literal string "local" when git
rev-parse fails because there is no git repository. -/
def commitHash (g : GitState) : String :=
  if g.inRepo then g.shortHash else "local"

/-- Embedded from src/scripts/build_and_push_ecr.sh lines 92-98: TAG is
the first script argument when one is given, else COMMIT_HASH. -/
def selectTag (arg : Option String) (g : GitState) : String :=
  match arg with
  | some t => t
  | none => commitHash g

/-- Embedded from src/scripts/build_and_push_ecr.sh lines 100-102: the
full image URI for a tag. -/
def imageURI (registry repo tag : String) : String :=
  registry ++ "/" ++ repo ++ ":" ++ tag

/-- Embedded from src/scripts/build_and_push_ecr.sh lines 161-178: the
image is built under TAG and, when TAG differs from COMMIT_HASH, also
tagged with COMMIT_HASH; docker push is run on the TAG image and, when TAG
differs from COMMIT_HASH, also on the COMMIT_HASH image, in that order. -/
def pushedImages (registry repo : String) (arg : Option String) (g : GitState) : List String :=
  let tag := selectTag arg g
  let ch := commitHash g
  if tag ≠ ch then
    [imageURI registry repo tag, imageURI registry repo ch]
  else
    [imageURI registry repo tag]

/-- C10: with no tag argument the image tag equals the short commit hash
(or "local" outside a git repository) and exactly one image is pushed;
with a tag argument that differs from the commit hash, the image is pushed
under both the given tag and the commit hash. -/
theorem build_script_tag_and_push_behaviour (registry repo t : String) (g : GitState) :
    selectTag none g = commitHash g
    ∧ commitHash g = (if g.inRepo then g.shortHash else "local")
    ∧ pushedImages registry repo none g = [imageURI registry repo (commitHash g)]
    ∧ (pushedImages registry repo none g).length = 1
    ∧ (t ≠ commitHash g →
        pushedImages registry repo (some t) g
          = [imageURI registry repo t, imageURI registry repo (commitHash g)]) := by
  refine ⟨rfl, rfl, ?_, ?_, ?_⟩
  · simp [pushedImages, selectTag]
  · simp [pushedImages, selectTag]
  · intro h
    simp [pushedImages, selectTag, h]

/-- C10 witness at a concrete git state and tag argument. -/
theorem build_script_tag_and_push_behaviour_witness :
    pushedImages "r.example.com" "bento-collector" none ⟨true, "a1b2c3d"⟩
      = ["r.example.com/bento-collector:a1b2c3d"]
    ∧ pushedImages "r.example.com" "bento-collector" (some "v1.0.0") ⟨true, "a1b2c3d"⟩
      = ["r.example.com/bento-collector:v1.0.0", "r.example.com/bento-collector:a1b2c3d"] := by
  have h := build_script_tag_and_push_behaviour "r.example.com" "bento-collector" "v1.0.0"
    ⟨true, "a1b2c3d"⟩
  refine ⟨?_, ?_⟩
  · have h3 := h.2.2.1
    simpa [commitHash, imageURI] using h3
  · have h5 := h.2.2.2.2 (by decide)
    simpa [commitHash, imageURI] using h5

/-- C1 witness: with count threshold 2, the Add that brings the open Batch
to 2 Events seals it and leaves a fresh empty Batch. -/
theorem batcher_seals_at_count_or_period_witness :
    (stepBatcher ⟨2, 5⟩ ⟨[⟨"api_call", "cust_1", [], none, none, none⟩], 0⟩
        (BStep.add ⟨"api_call", "cust_2", [], none, none, none⟩ 3)).1.openEvents = [] :=
  (batcher_seals_at_count_or_period ⟨2, 5⟩ ⟨[⟨"api_call", "cust_1", [], none, none, none⟩], 0⟩
      ⟨"api_call", "cust_2", [], none, none, none⟩ 3).2.2.1
    (BStep.add ⟨"api_call", "cust_2", [], none, none, none⟩ 3) (by decide)

/-- C5 witness: a concrete delivery run resolves to one of the two
terminal states. -/
theorem events_consumed_once_and_batches_resolve_witness :
    (runDelivery ⟨3, 1, 30⟩ (fun _ => DeliveryOutcome.success)).2 = Terminal.delivered
    ∨ (runDelivery ⟨3, 1, 30⟩ (fun _ => DeliveryOutcome.success)).2 = Terminal.deadLettered :=
  (events_consumed_once_and_batches_resolve ⟨2, 5⟩ ⟨3, 1, 30⟩ []
      (fun _ => DeliveryOutcome.success)).2.1

/-- C7 witness: a concrete Event with an empty event_name fails
validation. -/
theorem missing_fields_terminal_validation_error_witness :
    checkEvent ⟨"", "cust_1", [], none, none, none⟩ = EventCheck.validationFailed :=
  (missing_fields_terminal_validation_error ⟨"", "cust_1", [], none, none, none⟩).1.mpr
    (Or.inl rfl)

end BentoCollector
